import Mathlib

/- Shallow embedding of the concurrency primitives of the plan42-ai/concurrency
   repository: ContextGroup with its NotifyShutdown helper (context.go),
   TokenBucket, and Backoff. Each Go method becomes a pure function on an
   explicit state record; blocking and panics become explicit outcome values.
   Go float64 token arithmetic is modelled with exact rationals, time.Duration
   with integer nanosecond counts, and int64 overflow with an explicit wrap. -/

namespace Concurrency

/-- Reason a Go context is done: context.Canceled or context.DeadlineExceeded. -/
inductive CtxError where
  | canceled
  | deadlineExceeded
  deriving DecidableEq

/-- Model of an external context.Context: whether its Done channel is closed,
and which error Err reports once it is done. -/
structure GoCtx where
  done : Bool
  err : CtxError
  deriving DecidableEq

/-- Err of a context: nil while the context is live, the stored error once done. -/
def GoCtx.Err (ctx : GoCtx) : Option CtxError :=
  if ctx.done then some ctx.err else none

/-- Model of context.Background, which is never done. -/
def Background : GoCtx :=
  { done := false, err := CtxError.canceled }

/-- State of a ContextGroup (context.go): the sync.WaitGroup counter, the
cancelled flag of the shared context, the sync.Once latch that Init uses, and
whether the shutdown channel has been closed. -/
structure ContextGroup where
  counter : Int
  cancelled : Bool
  trackingStarted : Bool
  shutdownClosed : Bool
  deriving DecidableEq

/-- NewContextGroup: fresh group with counter zero and an open shutdown channel. -/
def NewContextGroup : ContextGroup :=
  { counter := 0, cancelled := false, trackingStarted := false, shutdownClosed := false }

/-- Result of ContextGroup.Add: the new state, the explicit panic Add raises
when the shutdown channel is already closed, or the sync.WaitGroup panic when
the counter would become negative. -/
inductive AddResult where
  | ok (c : ContextGroup)
  | panicAfterShutdown
  | panicNegativeCounter
  deriving DecidableEq

/-- Add (context.go lines 38-45): a non-blocking select on the shutdown
channel; panics if it is closed, otherwise delegates to wg.Add, which itself
panics when the counter would go negative. -/
def ContextGroup.Add (c : ContextGroup) (delta : Int) : AddResult :=
  if c.shutdownClosed then AddResult.panicAfterShutdown
  else if c.counter + delta < 0 then AddResult.panicNegativeCounter
  else AddResult.ok { c with counter := c.counter + delta }

/-- Done (context.go lines 48-50): wg.Done, a direct decrement with no
shutdown-channel check. -/
def ContextGroup.Done (c : ContextGroup) : AddResult :=
  if c.counter - 1 < 0 then AddResult.panicNegativeCounter
  else AddResult.ok { c with counter := c.counter - 1 }

/-- Cancel (context.go lines 53-55): cancels the shared context; idempotent. -/
def ContextGroup.Cancel (c : ContextGroup) : ContextGroup :=
  { c with cancelled := true }

/-- Init (context.go lines 63-67): through a sync.Once, starts the background
NotifyShutdown goroutine exactly once; modelled as setting the one-time latch. -/
def ContextGroup.Init (c : ContextGroup) : ContextGroup :=
  { c with trackingStarted := true }

/-- NotifyShutdown (the free helper applied to this group): the background
routine started by Init waits until the wg counter reaches zero and then
closes the shutdown channel. Modelled as the asynchronous step that fires
once tracking has started and the counter is zero. -/
def ContextGroup.NotifyShutdown (c : ContextGroup) : ContextGroup :=
  if c.trackingStarted = true ∧ c.counter = 0 then { c with shutdownClosed := true } else c

/-- Outcome of a wait-style call on a ContextGroup: it returned, carrying an
optional context error, or it blocks forever in the modelled state. -/
inductive WaitOutcome where
  | returned (e : Option CtxError)
  | blocked
  deriving DecidableEq

/-- WaitContext (context.go lines 76-83): a select over the shutdown channel
and ctx.Done. When both are ready the Go select picks a case pseudo-randomly;
that choice is the explicit oracle argument pick. The group state comes back
unchanged because the call only reads it. -/
def ContextGroup.WaitContext (c : ContextGroup) (ctx : GoCtx) (pick : Bool) :
    ContextGroup × WaitOutcome :=
  if c.shutdownClosed then
    if ctx.done = true ∧ pick = false then (c, WaitOutcome.returned ctx.Err)
    else (c, WaitOutcome.returned none)
  else if ctx.done then (c, WaitOutcome.returned ctx.Err)
  else (c, WaitOutcome.blocked)

/-- Wait (context.go lines 70-72): WaitContext with context.Background, the
result discarded. Background is never done, so the select oracle is
irrelevant; true is passed. -/
def ContextGroup.Wait (c : ContextGroup) : ContextGroup × WaitOutcome :=
  c.WaitContext Background true

/-- Close (context.go lines 95-100): cancels the shared context, then
receives from the shutdown channel, blocking while it is open, and returns
nil. -/
def ContextGroup.Close (c : ContextGroup) : ContextGroup × WaitOutcome :=
  let c1 := { c with cancelled := true }
  if c1.shutdownClosed then (c1, WaitOutcome.returned none) else (c1, WaitOutcome.blocked)

/-- Modelled from the spec wording of Close, for the refinement claim C9:
Cancel, then an unconditional Wait, then return nil in every returning run. -/
def ContextGroup.CancelThenWait (c : ContextGroup) : ContextGroup × WaitOutcome :=
  let r := (c.Cancel).Wait
  (r.1,
    match r.2 with
    | WaitOutcome.returned _ => WaitOutcome.returned none
    | WaitOutcome.blocked => WaitOutcome.blocked)

/-- TokenBucket state. The Go float64 fields are modelled as exact rationals;
time.Time and time.Duration values are rational numbers of nanoseconds. -/
structure TokenBucket where
  tokens : ℚ
  maxTokens : ℚ
  refillRate : ℚ
  refillDuration : ℚ
  lastRefill : ℚ
  deriving DecidableEq

/-- NewTokenBucket: the bucket starts full; now is the construction timestamp
taken from time.Now. -/
def NewTokenBucket (maxTokens refillRate refillDuration now : ℚ) : TokenBucket :=
  { tokens := maxTokens, maxTokens := maxTokens, refillRate := refillRate,
    refillDuration := refillDuration, lastRefill := now }

/-- Take: under the bucket lock, credit elapsed / refillDuration * refillRate
tokens for the time elapsed since lastRefill, set lastRefill to now, clamp the
balance at maxTokens, then withdraw amount when the balance covers it.
Returns the updated bucket and the success flag. -/
def TokenBucket.Take (tb : TokenBucket) (now amount : ℚ) : TokenBucket × Bool :=
  let elapsed := now - tb.lastRefill
  let refills := elapsed / tb.refillDuration
  let credited := tb.tokens + refills * tb.refillRate
  let clamped := if credited > tb.maxTokens then tb.maxTokens else credited
  if clamped ≥ amount then
    ({ tb with tokens := clamped - amount, lastRefill := now }, true)
  else
    ({ tb with tokens := clamped, lastRefill := now }, false)

/-- Sequence driver for TokenBucket: each list entry pairs the time elapsed
since the previous call with the requested amount. -/
def RunTakes (tb : TokenBucket) (ops : List (ℚ × ℚ)) : TokenBucket :=
  ops.foldl (fun s p => (s.Take (s.lastRefill + p.1) p.2).1) tb

/-- Backoff state: min, max and current are time.Duration values, an int64
count of nanoseconds; the timer pointer is modelled by the flag timerSet,
false while the pointer is nil. -/
structure Backoff where
  min : Int
  max : Int
  current : Int
  timerSet : Bool
  deriving DecidableEq

/-- Wrap of a mathematical integer into the signed 64-bit range, the
semantics of Go int64 overflow on multiplication. -/
def int64Wrap (x : Int) : Int :=
  (x + 2 ^ 63) % 2 ^ 64 - 2 ^ 63

/-- Backoff, the method: from zero jump to min; otherwise double, with Go
int64 wrap-around, and cap at max when the doubled value exceeds it. -/
def Backoff.backoff (b : Backoff) : Backoff :=
  if b.current = 0 then { b with current := b.min }
  else
    let doubled := int64Wrap (b.current * 2)
    if doubled > b.max then { b with current := b.max } else { b with current := doubled }

/-- Recover: halve current with Go integer division, which truncates toward
zero exactly as Int.tdiv does, and reset to zero when the halved value falls
below min. -/
def Backoff.Recover (b : Backoff) : Backoff :=
  let halved := Int.tdiv b.current 2
  if halved < b.min then { b with current := 0 } else { b with current := halved }

/-- Outcome of Backoff.WaitContext: immediate nil return without touching the
timer, a completed jittered sleep, an abort carrying the context error, or
the panic the jitter draw raises on a negative upper bound. -/
inductive BWaitOutcome where
  | immediate
  | sleptThenOk
  | aborted (e : Option CtxError)
  | panicked
  deriving DecidableEq

/-- WaitContext on Backoff: zero current returns nil at once. Otherwise
rand.N draws the jitter, panicking when current is negative; then the timer
is armed and the call races the timer against ctx.Done. In this untimed
model a live context lets the timer fire and a done context aborts the
sleep; the drawn jitter value never affects which result is returned, so it
is not a parameter. -/
def Backoff.WaitContext (b : Backoff) (ctx : GoCtx) : Backoff × BWaitOutcome :=
  if b.current = 0 then (b, BWaitOutcome.immediate)
  else if b.current < 0 then (b, BWaitOutcome.panicked)
  else
    let b1 := { b with timerSet := true }
    if ctx.done then (b1, BWaitOutcome.aborted ctx.Err) else (b1, BWaitOutcome.sleptThenOk)

/-- Wait on Backoff: WaitContext with context.Background. -/
def Backoff.Wait (b : Backoff) : Backoff × BWaitOutcome :=
  b.WaitContext Background

/-- NewBackoff: stores the bounds; current starts at zero and no timer exists. -/
def NewBackoff (minBackoff maxBackoff : Int) : Backoff :=
  { min := minBackoff, max := maxBackoff, current := 0, timerSet := false }

/-- Iterated calls of the Backoff method. -/
def Backoff.iterate (b : Backoff) : Nat → Backoff
  | 0 => b
  | n + 1 => (Backoff.iterate b n).backoff

/-- One call in a mixed Backoff and Recover call sequence. -/
inductive BackoffOp where
  | backoffCall
  | recoverCall
  deriving DecidableEq

/-- Run a sequence of Backoff and Recover calls. -/
def RunBackoff (b : Backoff) (ops : List BackoffOp) : Backoff :=
  ops.foldl
    (fun s op =>
      match op with
      | BackoffOp.backoffCall => s.backoff
      | BackoffOp.recoverCall => s.Recover)
    b

/-- C1 counterexample: on a fresh group on which Init was never called, Close
and Wait block forever and the completion-tracking latch is still unset after
the call, so it is false that every Wait or Close call first ensures that
tracking has started. -/
theorem close_and_wait_do_not_start_tracking :
    (NewContextGroup.Close).1.trackingStarted = false ∧
    (NewContextGroup.Close).2 = WaitOutcome.blocked ∧
    (NewContextGroup.Wait).1.trackingStarted = false ∧
    (NewContextGroup.Wait).2 = WaitOutcome.blocked := by
  decide

/-- C1 amended: Wait and Close never change the one-time tracking latch;
tracking is started only by an explicit Init call, which sets the latch and is
idempotent, and while the shutdown channel is open both Wait and Close block
regardless of the latch. -/
theorem tracking_started_only_by_init (c : ContextGroup)
    (h : c.shutdownClosed = false) :
    (c.Close).1.trackingStarted = c.trackingStarted ∧
    (c.Wait).1.trackingStarted = c.trackingStarted ∧
    (c.Init).trackingStarted = true ∧
    (c.Init).Init = c.Init ∧
    (c.Close).2 = WaitOutcome.blocked ∧
    (c.Wait).2 = WaitOutcome.blocked := by
  unfold ContextGroup.Close ContextGroup.Wait ContextGroup.WaitContext ContextGroup.Init
  simp [h, Background]

/-- C1 amended witness at the fresh group. -/
theorem tracking_started_only_by_init_witness :
    (NewContextGroup.Close).1.trackingStarted = NewContextGroup.trackingStarted ∧
    (NewContextGroup.Wait).1.trackingStarted = NewContextGroup.trackingStarted ∧
    (NewContextGroup.Init).trackingStarted = true ∧
    (NewContextGroup.Init).Init = NewContextGroup.Init ∧
    (NewContextGroup.Close).2 = WaitOutcome.blocked ∧
    (NewContextGroup.Wait).2 = WaitOutcome.blocked :=
  tracking_started_only_by_init NewContextGroup rfl

/-- C4: once the shutdown channel is closed, Add panics for every delta,
positive or negative; while it is open, Add never raises the after-shutdown
panic and, whenever the new counter would stay nonnegative, adjusts the
counter by delta. -/
theorem add_panics_after_completion (c : ContextGroup) (delta : Int) :
    (c.shutdownClosed = true → c.Add delta = AddResult.panicAfterShutdown) ∧
    (c.shutdownClosed = false → c.Add delta ≠ AddResult.panicAfterShutdown) ∧
    (c.shutdownClosed = false → 0 ≤ c.counter + delta →
      c.Add delta = AddResult.ok { c with counter := c.counter + delta }) := by
  unfold ContextGroup.Add
  refine ⟨fun h => by simp [h], fun h => ?_, fun h h2 => ?_⟩
  · simp only [h, Bool.false_eq_true, if_false]
    split_ifs <;> simp
  · simp [h, not_lt.mpr h2]

/-- C4 witness: a group with a closed shutdown channel panics on Add, and the
fresh group accepts Add of two. -/
theorem add_panics_after_completion_witness :
    ContextGroup.Add
        { counter := 0, cancelled := false, trackingStarted := true, shutdownClosed := true } 1 =
      AddResult.panicAfterShutdown ∧
    ContextGroup.Add NewContextGroup 2 =
      AddResult.ok { NewContextGroup with counter := NewContextGroup.counter + 2 } :=
  ⟨(add_panics_after_completion _ 1).1 rfl,
   (add_panics_after_completion NewContextGroup 2).2.2 rfl (by norm_num [NewContextGroup])⟩

/-- C5: WaitContext leaves the group state untouched, in particular it never
cancels the shared context; it returns nil when the completion signal has
fired and the supplied context is still live, and it returns the supplied
context error, without blocking, when that context is done and the signal has
not fired, including a context that was already expired on entry. -/
theorem waitContext_races_completion_against_ctx (c : ContextGroup) (ctx : GoCtx)
    (pick : Bool) :
    (c.WaitContext ctx pick).1 = c ∧
    (c.shutdownClosed = true → ctx.done = false →
      (c.WaitContext ctx pick).2 = WaitOutcome.returned none) ∧
    (c.shutdownClosed = false → ctx.done = true →
      (c.WaitContext ctx pick).2 = WaitOutcome.returned (some ctx.err)) ∧
    (c.shutdownClosed = false → ctx.done = true →
      (c.WaitContext ctx pick).2 ≠ WaitOutcome.blocked) := by
  cases hs : c.shutdownClosed <;> cases hd : ctx.done <;> cases pick <;>
    simp [ContextGroup.WaitContext, GoCtx.Err, hs, hd]

/-- C5 witness: a group with counter three and an already-expired deadline
context returns the deadline error at once. -/
theorem waitContext_races_witness :
    (ContextGroup.WaitContext
        { counter := 3, cancelled := false, trackingStarted := true, shutdownClosed := false }
        { done := true, err := CtxError.deadlineExceeded } true).2 =
      WaitOutcome.returned (some CtxError.deadlineExceeded) :=
  (waitContext_races_completion_against_ctx
      { counter := 3, cancelled := false, trackingStarted := true, shutdownClosed := false }
      { done := true, err := CtxError.deadlineExceeded } true).2.2.1 rfl rfl

/-- C9: Close coincides, as a function on group states, with the composition
that cancels the shared context and then waits unconditionally, and every
returning run of Close returns nil. -/
theorem close_equals_cancel_then_wait (c : ContextGroup) :
    c.Close = c.CancelThenWait ∧
    ((c.Close).2 = WaitOutcome.blocked ∨ (c.Close).2 = WaitOutcome.returned none) := by
  unfold ContextGroup.Close ContextGroup.CancelThenWait ContextGroup.Cancel
    ContextGroup.Wait ContextGroup.WaitContext
  by_cases hs : c.shutdownClosed <;> simp [hs, Background]

/-- C2: Take first credits elapsed over refillDuration times refillRate
tokens measured from the exact lastRefill timestamp, clamps the balance at
maxTokens, advances lastRefill to now, and then withdraws amount exactly when
the replenished balance covers it, returning the success flag; on failure the
balance keeps the replenishment. Configuration fields are untouched. -/
theorem take_credits_clamps_then_withdraws (tb : TokenBucket) (now amount : ℚ) :
    ((tb.Take now amount).2 = true ↔
      amount ≤
        min (tb.tokens + (now - tb.lastRefill) / tb.refillDuration * tb.refillRate)
          tb.maxTokens) ∧
    (tb.Take now amount).1.tokens =
      (if amount ≤
          min (tb.tokens + (now - tb.lastRefill) / tb.refillDuration * tb.refillRate)
            tb.maxTokens then
        min (tb.tokens + (now - tb.lastRefill) / tb.refillDuration * tb.refillRate)
            tb.maxTokens -
          amount
      else
        min (tb.tokens + (now - tb.lastRefill) / tb.refillDuration * tb.refillRate)
          tb.maxTokens) ∧
    (tb.Take now amount).1.lastRefill = now ∧
    (tb.Take now amount).1.maxTokens = tb.maxTokens ∧
    (tb.Take now amount).1.refillRate = tb.refillRate ∧
    (tb.Take now amount).1.refillDuration = tb.refillDuration := by
  have hmin :
      (if tb.tokens + (now - tb.lastRefill) / tb.refillDuration * tb.refillRate > tb.maxTokens
        then tb.maxTokens
        else tb.tokens + (now - tb.lastRefill) / tb.refillDuration * tb.refillRate) =
      min (tb.tokens + (now - tb.lastRefill) / tb.refillDuration * tb.refillRate)
        tb.maxTokens := by
    rcases le_or_lt (tb.tokens + (now - tb.lastRefill) / tb.refillDuration * tb.refillRate)
        tb.maxTokens with h | h
    · simp [min_eq_left h, not_lt.mpr h]
    · simp [min_eq_right (le_of_lt h), h]
  simp only [TokenBucket.Take, hmin]
  split_ifs with h
  · simp only [ge_iff_le] at h
    simp [h]
  · simp only [ge_iff_le] at h
    simp [h]

/-- C3 counterexample: Take with a negative amount pushes the balance above
maxTokens: a full bucket with capacity ten accepts Take of minus five with no
time elapsed and ends with fifteen tokens, above its own cap. -/
theorem take_negative_amount_breaks_cap :
    (RunTakes (NewTokenBucket 10 10 1 0) [(0, -5)]).tokens >
      (RunTakes (NewTokenBucket 10 10 1 0) [(0, -5)]).maxTokens := by
  norm_num [RunTakes, TokenBucket.Take, NewTokenBucket]

/-- Helper: one Take keeps the balance inside the band from zero to
maxTokens when the balance starts nonnegative, the configuration is sane,
the clock does not run backwards and the amount is nonnegative. -/
theorem take_bounds (tb : TokenBucket) (now amount : ℚ)
    (h0 : 0 ≤ tb.tokens) (hmax : 0 ≤ tb.maxTokens) (hrate : 0 ≤ tb.refillRate)
    (hdur : 0 < tb.refillDuration) (hnow : tb.lastRefill ≤ now) (hamt : 0 ≤ amount) :
    0 ≤ (tb.Take now amount).1.tokens ∧ (tb.Take now amount).1.tokens ≤ tb.maxTokens := by
  have hcred : 0 ≤ (now - tb.lastRefill) / tb.refillDuration * tb.refillRate :=
    mul_nonneg (div_nonneg (by linarith) (le_of_lt hdur)) hrate
  simp only [TokenBucket.Take]
  split_ifs with h1 h2 h3 <;> constructor <;> simp only [] <;> linarith

/-- Helper: Take never changes the configuration fields. -/
theorem take_keeps_config (tb : TokenBucket) (now amount : ℚ) :
    (tb.Take now amount).1.maxTokens = tb.maxTokens ∧
    (tb.Take now amount).1.refillRate = tb.refillRate ∧
    (tb.Take now amount).1.refillDuration = tb.refillDuration := by
  simp only [TokenBucket.Take]
  split_ifs <;> simp

/-- Helper: along any sequence of Take calls with nonnegative elapsed times
and amounts, a bucket with a sane configuration keeps its balance between
zero and its unchanged maxTokens. -/
theorem runTakes_bounds (ops : List (ℚ × ℚ)) :
    ∀ tb : TokenBucket, 0 ≤ tb.tokens → tb.tokens ≤ tb.maxTokens → 0 ≤ tb.refillRate →
      0 < tb.refillDuration → (∀ p ∈ ops, 0 ≤ p.1 ∧ 0 ≤ p.2) →
      0 ≤ (RunTakes tb ops).tokens ∧
        (RunTakes tb ops).tokens ≤ (RunTakes tb ops).maxTokens ∧
        (RunTakes tb ops).maxTokens = tb.maxTokens := by
  induction ops with
  | nil =>
    intro tb h0 h1 _ _ _
    exact ⟨h0, h1, rfl⟩
  | cons p ops ih =>
    intro tb h0 h1 h2 h3 hall
    have hp := hall p (List.mem_cons_self p ops)
    have hmax : 0 ≤ tb.maxTokens := le_trans h0 h1
    have hstep := take_bounds tb (tb.lastRefill + p.1) p.2 h0 hmax h2 h3
      (by linarith [hp.1]) hp.2
    have hcfg := take_keeps_config tb (tb.lastRefill + p.1) p.2
    have hrest := ih ((tb.Take (tb.lastRefill + p.1) p.2).1) hstep.1
      (by rw [hcfg.1]; exact hstep.2) (by rw [hcfg.2.1]; exact h2)
      (by rw [hcfg.2.2]; exact h3) (fun q hq => hall q (List.mem_cons_of_mem p hq))
    have hrun : RunTakes tb (p :: ops) = RunTakes ((tb.Take (tb.lastRefill + p.1) p.2).1) ops :=
      rfl
    rw [hrun]
    exact ⟨hrest.1, hrest.2.1, by rw [hrest.2.2, hcfg.1]⟩

/-- C3 amended: for every TokenBucket created by NewTokenBucket with
nonnegative maxTokens and refillRate and positive refillPeriod, and every
sequence of Take calls with nonnegative amounts and nonnegative elapsed
times, after each call the balance satisfies zero at most tokens at most
maxTokens, including after arbitrarily large elapsed gaps. -/
theorem tokenBucket_invariant (maxT rate dur t0 : ℚ) (ops : List (ℚ × ℚ))
    (hmax : 0 ≤ maxT) (hrate : 0 ≤ rate) (hdur : 0 < dur)
    (hops : ∀ p ∈ ops, 0 ≤ p.1 ∧ 0 ≤ p.2) :
    0 ≤ (RunTakes (NewTokenBucket maxT rate dur t0) ops).tokens ∧
      (RunTakes (NewTokenBucket maxT rate dur t0) ops).tokens ≤ maxT := by
  have h := runTakes_bounds ops (NewTokenBucket maxT rate dur t0) hmax (le_refl maxT)
    hrate hdur hops
  have h22 : (RunTakes (NewTokenBucket maxT rate dur t0) ops).maxTokens = maxT := h.2.2
  exact ⟨h.1, le_of_le_of_eq h.2.1 h22⟩

/-- C3 amended witness: capacity ten, refill rate ten per period of one, a
successful withdrawal of five and an oversized request of one hundred keep
the balance inside the bounds. -/
theorem tokenBucket_invariant_witness :
    0 ≤ (RunTakes (NewTokenBucket 10 10 1 0) [(0, 5), (1, 100)]).tokens ∧
      (RunTakes (NewTokenBucket 10 10 1 0) [(0, 5), (1, 100)]).tokens ≤ 10 :=
  tokenBucket_invariant 10 10 1 0 [(0, 5), (1, 100)] (by norm_num) (by norm_num)
    (by norm_num)
    (by
      intro p hp
      fin_cases hp <;> exact ⟨by norm_num, by norm_num⟩)

/-- Invariant carried by the current interval of a Backoff with fixed bounds:
zero or inside the band, never above max, never negative. -/
def BackoffInv (minB maxB : Int) (b : Backoff) : Prop :=
  b.min = minB ∧ b.max = maxB ∧ 0 ≤ b.current ∧ b.current ≤ maxB ∧
    (b.current = 0 ∨ minB ≤ b.current)

/-- Helper: the int64 wrap is the identity inside the representable range. -/
theorem int64Wrap_eq_self (x : Int) (h0 : -(2 ^ 63) ≤ x) (h1 : x < 2 ^ 63) :
    int64Wrap x = x := by
  unfold int64Wrap
  rw [Int.emod_eq_of_lt (by omega) (by omega)]
  omega

/-- Helper: under sane bounds one Backoff call preserves the invariant, never
decreases the interval, and on a nonzero interval doubles it and caps it at
max. -/
theorem backoff_step_bounds (minB maxB : Int) (b : Backoff)
    (h0 : 0 ≤ minB) (h1 : minB ≤ maxB) (h2 : maxB < 2 ^ 62)
    (hb : BackoffInv minB maxB b) :
    BackoffInv minB maxB b.backoff ∧ b.current ≤ (b.backoff).current ∧
      (b.current ≠ 0 →
        (b.backoff).current = if 2 * b.current > maxB then maxB else 2 * b.current) := by
  obtain ⟨hmin, hmax, hc0, hcmax, hdisj⟩ := hb
  subst hmin
  subst hmax
  by_cases hz : b.current = 0
  · have hstep : b.backoff = { b with current := b.min } := by
      unfold Backoff.backoff
      rw [if_pos hz]
    rw [hstep]
    refine ⟨⟨rfl, rfl, h0, h1, Or.inr (le_refl b.min)⟩, ?_, fun hne => absurd hz hne⟩
    show b.current ≤ b.min
    omega
  · have hcpos : 0 < b.current := lt_of_le_of_ne hc0 (Ne.symm hz)
    have hwrap : int64Wrap (b.current * 2) = b.current * 2 :=
      int64Wrap_eq_self _ (by omega) (by omega)
    have hstep : b.backoff =
        if b.current * 2 > b.max then { b with current := b.max }
        else { b with current := b.current * 2 } := by
      unfold Backoff.backoff
      rw [if_neg hz, hwrap]
    rw [hstep]
    by_cases hcap : b.current * 2 > b.max
    · rw [if_pos hcap]
      refine ⟨⟨rfl, rfl, ?_, ?_, Or.inr ?_⟩, ?_, fun _ => ?_⟩
      · show (0 : Int) ≤ b.max
        omega
      · show b.max ≤ b.max
        omega
      · show b.min ≤ b.max
        omega
      · show b.current ≤ b.max
        omega
      · show b.max = if 2 * b.current > b.max then b.max else 2 * b.current
        rw [if_pos (by omega)]
    · rw [if_neg hcap]
      refine ⟨⟨rfl, rfl, ?_, ?_, Or.inr ?_⟩, ?_, fun _ => ?_⟩
      · show (0 : Int) ≤ b.current * 2
        omega
      · show b.current * 2 ≤ b.max
        omega
      · show b.min ≤ b.current * 2
        rcases hdisj with h | h
        · exact absurd h hz
        · omega
      · show b.current ≤ b.current * 2
        omega
      · show b.current * 2 = if 2 * b.current > b.max then b.max else 2 * b.current
        rw [if_neg (by omega)]
        omega

/-- Helper: Recover preserves the invariant when min is nonnegative. -/
theorem recover_step_bounds (minB maxB : Int) (b : Backoff)
    (h0 : 0 ≤ minB) (hb : BackoffInv minB maxB b) :
    BackoffInv minB maxB b.Recover := by
  obtain ⟨hmin, hmax, hc0, hcmax, hdisj⟩ := hb
  subst hmin
  subst hmax
  have htd : Int.tdiv b.current 2 = b.current / 2 := Int.tdiv_eq_ediv hc0 (by norm_num)
  have hstep : b.Recover =
      if b.current / 2 < b.min then { b with current := 0 }
      else { b with current := b.current / 2 } := by
    unfold Backoff.Recover
    rw [htd]
  rw [hstep]
  split_ifs with h
  · refine ⟨rfl, rfl, le_refl 0, ?_, Or.inl rfl⟩
    show (0 : Int) ≤ b.max
    omega
  · refine ⟨rfl, rfl, ?_, ?_, Or.inr ?_⟩
    · show (0 : Int) ≤ b.current / 2
      omega
    · show b.current / 2 ≤ b.max
      omega
    · show b.min ≤ b.current / 2
      omega

/-- Helper: the invariant holds along every iterated Backoff call sequence
from a fresh NewBackoff. -/
theorem backoffInv_iterate (minB maxB : Int) (n : Nat)
    (h0 : 0 ≤ minB) (h1 : minB ≤ maxB) (h2 : maxB < 2 ^ 62) :
    BackoffInv minB maxB ((NewBackoff minB maxB).iterate n) := by
  induction n with
  | zero => exact ⟨rfl, rfl, le_refl 0, le_trans h0 h1, Or.inl rfl⟩
  | succ n ih => exact (backoff_step_bounds minB maxB _ h0 h1 h2 ih).1

/-- C6 counterexample: the bounds minus two and five satisfy min at most max,
yet the second Backoff call strictly decreases the interval from minus two to
minus four, so successive calls are not non-decreasing. -/
theorem backoff_decreases_for_negative_min :
    (NewBackoff (-2) 5).min ≤ (NewBackoff (-2) 5).max ∧
    ((NewBackoff (-2) 5).iterate 2).current < ((NewBackoff (-2) 5).iterate 1).current := by
  decide

/-- C6 amended: for bounds with zero at most min at most max below two to the
sixty-second, so that no int64 doubling overflow is possible, the first
Backoff call from the zero state sets the interval to min, every later call
on a nonzero interval doubles it and caps the result at max, and successive
calls give non-decreasing intervals never above max. -/
theorem backoff_monotone_capped (minB maxB : Int) (n : Nat)
    (h0 : 0 ≤ minB) (h1 : minB ≤ maxB) (h2 : maxB < 2 ^ 62) :
    ((NewBackoff minB maxB).iterate 1).current = minB ∧
    ((NewBackoff minB maxB).iterate n).current ≤
      ((NewBackoff minB maxB).iterate (n + 1)).current ∧
    ((NewBackoff minB maxB).iterate n).current ≤ maxB ∧
    (((NewBackoff minB maxB).iterate n).current ≠ 0 →
      ((NewBackoff minB maxB).iterate (n + 1)).current =
        if 2 * ((NewBackoff minB maxB).iterate n).current > maxB then maxB
        else 2 * ((NewBackoff minB maxB).iterate n).current) := by
  have hinv := backoffInv_iterate minB maxB n h0 h1 h2
  have hstep := backoff_step_bounds minB maxB _ h0 h1 h2 hinv
  exact ⟨by simp [Backoff.iterate, NewBackoff, Backoff.backoff], hstep.2.1,
    hinv.2.2.2.1, hstep.2.2⟩

/-- C6 amended witness: bounds one and four, third call versus fourth call. -/
theorem backoff_monotone_capped_witness :
    ((NewBackoff 1 4).iterate 2).current ≤ ((NewBackoff 1 4).iterate 3).current :=
  (backoff_monotone_capped 1 4 2 (by decide) (by decide) (by decide)).2.1

/-- C7 counterexample: in the zero state Recover leaves the interval exactly
at zero, so it is false that every Recover call strictly decreases the
current interval. -/
theorem recover_fixed_at_zero :
    ((({ min := 1, max := 5, current := 0, timerSet := false } : Backoff).Recover).current =
        0) ∧
    ¬ ((({ min := 1, max := 5, current := 0, timerSet := false } : Backoff).Recover).current <
        ({ min := 1, max := 5, current := 0, timerSet := false } : Backoff).current) := by
  decide

/-- C7 amended: on every state with a positive current interval, Recover
strictly decreases it; the result is exactly zero when the halved value
falls below min and exactly the halved value otherwise. -/
theorem recover_strictly_decreases_when_positive (b : Backoff) (h : 0 < b.current) :
    (b.Recover).current < b.current ∧
    (Int.tdiv b.current 2 < b.min → (b.Recover).current = 0) ∧
    (b.min ≤ Int.tdiv b.current 2 → (b.Recover).current = Int.tdiv b.current 2) := by
  have htd : Int.tdiv b.current 2 = b.current / 2 := Int.tdiv_eq_ediv (le_of_lt h) (by norm_num)
  simp only [Backoff.Recover, htd]
  split_ifs with hlt <;>
    refine ⟨?_, fun hh => ?_, fun hh => ?_⟩ <;> simp only [] <;> omega

/-- C7 amended witness: min one, current four; Recover yields two, below four. -/
theorem recover_strictly_decreases_witness :
    ((({ min := 1, max := 5, current := 4, timerSet := false } : Backoff)).Recover).current <
      ({ min := 1, max := 5, current := 4, timerSet := false } : Backoff).current :=
  (recover_strictly_decreases_when_positive
      { min := 1, max := 5, current := 4, timerSet := false } (by decide)).1

/-- C8: with a zero current interval, WaitContext and Wait return immediately
with no error, leaving the state (including the timer) untouched, whatever
the supplied context is, even one already cancelled or expired. -/
theorem backoff_waitContext_zero_immediate (b : Backoff) (ctx : GoCtx)
    (h : b.current = 0) :
    b.WaitContext ctx = (b, BWaitOutcome.immediate) ∧
    b.Wait = (b, BWaitOutcome.immediate) := by
  unfold Backoff.Wait Backoff.WaitContext
  simp [h]

/-- C8 witness: a fresh Backoff and an already-expired deadline context. -/
theorem backoff_waitContext_zero_immediate_witness :
    (NewBackoff 3 7).WaitContext { done := true, err := CtxError.deadlineExceeded } =
      (NewBackoff 3 7, BWaitOutcome.immediate) ∧
    (NewBackoff 3 7).Wait = (NewBackoff 3 7, BWaitOutcome.immediate) :=
  backoff_waitContext_zero_immediate (NewBackoff 3 7)
    { done := true, err := CtxError.deadlineExceeded } rfl

/-- C10 counterexample: min two to the sixty-second and max one below two to
the sixty-third are nonnegative ordered bounds, yet two Backoff calls make
the int64 doubling overflow and leave the interval negative, which is
neither zero nor inside the band from min to max. -/
theorem backoff_invariant_overflow :
    0 ≤ (NewBackoff (2 ^ 62) (2 ^ 63 - 1)).min ∧
    (NewBackoff (2 ^ 62) (2 ^ 63 - 1)).min ≤ (NewBackoff (2 ^ 62) (2 ^ 63 - 1)).max ∧
    ¬ ((RunBackoff (NewBackoff (2 ^ 62) (2 ^ 63 - 1))
          [BackoffOp.backoffCall, BackoffOp.backoffCall]).current = 0 ∨
        ((NewBackoff (2 ^ 62) (2 ^ 63 - 1)).min ≤
            (RunBackoff (NewBackoff (2 ^ 62) (2 ^ 63 - 1))
              [BackoffOp.backoffCall, BackoffOp.backoffCall]).current ∧
          (RunBackoff (NewBackoff (2 ^ 62) (2 ^ 63 - 1))
              [BackoffOp.backoffCall, BackoffOp.backoffCall]).current ≤
            (NewBackoff (2 ^ 62) (2 ^ 63 - 1)).max)) := by
  decide

/-- Helper: the invariant is preserved along any mixed sequence of Backoff
and Recover calls. -/
theorem runBackoff_inv_aux (minB maxB : Int) (h0 : 0 ≤ minB) (h1 : minB ≤ maxB)
    (h2 : maxB < 2 ^ 62) (ops : List BackoffOp) :
    ∀ b : Backoff, BackoffInv minB maxB b → BackoffInv minB maxB (RunBackoff b ops) := by
  induction ops with
  | nil => intro b hb; exact hb
  | cons op ops ih =>
    intro b hb
    cases op with
    | backoffCall => exact ih b.backoff (backoff_step_bounds minB maxB b h0 h1 h2 hb).1
    | recoverCall => exact ih b.Recover (recover_step_bounds minB maxB b h0 hb)

/-- C10 amended: for every Backoff created by NewBackoff with zero at most
min at most max below two to the sixty-second, after any sequence of Backoff
and Recover calls the current interval is exactly zero or lies in the closed
band from min to max; in particular it is never strictly between zero and
min. -/
theorem backoff_current_zero_or_in_band (minB maxB : Int) (ops : List BackoffOp)
    (h0 : 0 ≤ minB) (h1 : minB ≤ maxB) (h2 : maxB < 2 ^ 62) :
    (RunBackoff (NewBackoff minB maxB) ops).current = 0 ∨
      (minB ≤ (RunBackoff (NewBackoff minB maxB) ops).current ∧
        (RunBackoff (NewBackoff minB maxB) ops).current ≤ maxB) := by
  have h := runBackoff_inv_aux minB maxB h0 h1 h2 ops (NewBackoff minB maxB)
    ⟨rfl, rfl, le_refl 0, le_trans h0 h1, Or.inl rfl⟩
  rcases h with ⟨-, -, -, hle, hdisj⟩
  rcases hdisj with h | h
  · exact Or.inl h
  · exact Or.inr ⟨h, hle⟩

/-- C10 amended witness: bounds one and four with two Backoff calls followed
by one Recover call. -/
theorem backoff_current_zero_or_in_band_witness :
    (RunBackoff (NewBackoff 1 4)
        [BackoffOp.backoffCall, BackoffOp.backoffCall, BackoffOp.recoverCall]).current = 0 ∨
      (1 ≤ (RunBackoff (NewBackoff 1 4)
            [BackoffOp.backoffCall, BackoffOp.backoffCall, BackoffOp.recoverCall]).current ∧
        (RunBackoff (NewBackoff 1 4)
            [BackoffOp.backoffCall, BackoffOp.backoffCall, BackoffOp.recoverCall]).current ≤
          4) :=
  backoff_current_zero_or_in_band 1 4
    [BackoffOp.backoffCall, BackoffOp.backoffCall, BackoffOp.recoverCall]
    (by decide) (by decide) (by decide)

end Concurrency
